import Mathlib

/-!
Shallow embedding of the Fluffy_Assistent authorization / execution core
(src/core/src/ipc/command.rs, src/core/src/permissions/policy.rs,
src/core/src/actions/safety.rs, src/core/src/ipc/receiver.rs), together
with theorems settling the frozen claims about it.
-/

namespace Fluffy

/-- `Command` from src/core/src/ipc/command.rs: the closed set of protocol
variants.  `pid` is a Rust `u32`, embedded as `Nat` (only compared, never
subject to wraparound arithmetic). -/
inductive Command where
  | KillProcess (pid : Nat)
  | RequestCleanup
  | OpenPath (path : String)
  | NormalizeSystem
  | StartupAdd (name : String) (path : String)
  | StartupRemove (name : String)
  | StartupToggle (name : String) (enabled : Bool)
  | Confirm (command_id : String)
  | Cancel (command_id : String)
  | SetUiActive (active : Bool)
  deriving DecidableEq, Repr

/-- Modelled from the spec: `PermissionDecision` lives in
src/core/src/permissions/decision.rs, which is not part of the snapshot;
its three variants and their `reason` fields are pinned down both by §3 of
the spec ("one of Allow, RequireConfirmation{reason}, Deny{reason}") and by
every construction site in policy.rs. -/
inductive PermissionDecision where
  | Allow
  | RequireConfirmation (reason : String)
  | Deny (reason : String)
  deriving DecidableEq, Repr

/-- `evaluate` from src/core/src/permissions/policy.rs.  The Rust `match`
has arms for every `Command` variant except `StartupToggle`: the match is
non-exhaustive, so the function as written defines no result there.  The
missing arm is embedded as `none`; every arm that exists returns `some`. -/
def evaluate : Command → Option PermissionDecision
  | .Confirm _ | .Cancel _ =>
      some (.Deny "Confirmation commands are not executable actions")
  | .KillProcess pid =>
      if pid < 100 then
        some (.Deny "System process protection")
      else
        some (.RequireConfirmation "Killing a process may cause data loss")
  | .RequestCleanup =>
      some (.RequireConfirmation "Cleanup may close background applications")
  | .OpenPath _ => some .Allow
  | .NormalizeSystem => some .Allow
  | .StartupAdd _ _ | .StartupRemove _ =>
      some (.RequireConfirmation "Modifying startup applications affects system boot")
  | .SetUiActive _ => some .Allow
  | .StartupToggle _ _ => none

/-- `SafetyLevel` from src/core/src/actions/safety.rs. -/
inductive SafetyLevel where
  | Safe
  | NeedsConfirmation
  | Blocked
  deriving DecidableEq, Repr

/-- A filesystem path, embedded as its list of components (the view Rust's
`Path::starts_with`, `Path::parent` and `PathBuf::join` operate on). -/
abbrev RPath : Type := List String

/-- Rust `Path::starts_with base` on the component view: `base` is a
component-wise prefix of the path. -/
def rustStartsWith (base : RPath) (p : RPath) : Bool :=
  match base, p with
  | [], _ => true
  | _ :: _, [] => false
  | b :: bs, x :: xs => b = x && rustStartsWith bs xs

/-- Rust `Path::parent`: drop the final component; `None` on an empty path. -/
def rustParent (p : RPath) : Option RPath :=
  match p with
  | [] => none
  | _ :: _ => some (List.dropLast p)

/-- Char-list core of `str::starts_with` / suffix matching: the first list
leads the second. -/
def charsStart : List Char → List Char → Bool
  | [], _ => true
  | _ :: _, [] => false
  | a :: as, b :: bs => a = b && charsStart as bs

/-- Rust `str::ends_with` (on the character view; all names involved are
ASCII). -/
def strEndsWith (s : String) (suffix : String) : Bool :=
  charsStart suffix.data.reverse s.data.reverse

/-- Keep all but the last `n` characters (the complement Rust's
`strip_suffix` returns). -/
def strDropRight (s : String) (n : Nat) : String :=
  ⟨s.data.take (s.data.length - n)⟩

/-- Rust `str::to_lowercase` (character-wise; the process names involved
are ASCII). -/
def strToLower (s : String) : String :=
  ⟨s.data.map Char.toLower⟩

/-- Rust `str::trim`: strip leading and trailing whitespace. -/
def strTrim (s : String) : String :=
  ⟨((s.data.dropWhile Char.isWhitespace).reverse.dropWhile
      Char.isWhitespace).reverse⟩

/-- Split a character list at every occurrence of `sep` (the single-char
case of Rust's `split` / Lean's `splitOn`). -/
def splitOnChar (sep : Char) : List Char → List (List Char)
  | [] => [[]]
  | c :: rest =>
    let r := splitOnChar sep rest
    if c = sep then [] :: r
    else
      match r with
      | [] => [[c]]
      | g :: gs => (c :: g) :: gs

/-- Rust `Path::extension` applied to a file name: the part after the last
dot, `None` when there is no dot or when the name starts with its only
dot. -/
def nameExtension (name : String) : Option String :=
  match splitOnChar '.' name.data with
  | [] => none
  | [_] => none
  | [[], _] => none
  | parts => some ⟨parts.getLastD []⟩

/-- Rust `Path::extension` on the component view: the extension of the last
component. -/
def pathExtension (p : RPath) : Option String :=
  match List.getLast? p with
  | none => none
  | some name => nameExtension name

/-- `SafetyValidator` from src/core/src/actions/safety.rs. -/
structure SafetyValidator where
  protected_paths : List RPath
  allowed_paths : List RPath
  system_extensions : List String

/-- `SafetyValidator::get_protected_paths`, switching on `cfg!(windows)`. -/
def get_protected_paths (windows : Bool) : List RPath :=
  if windows then
    [["C:", "Windows"], ["C:", "Program Files"],
     ["C:", "Program Files (x86)"], ["C:", "ProgramData"]]
  else
    [["bin"], ["sbin"], ["usr", "bin"], ["usr", "sbin"], ["etc"],
     ["boot"], ["sys"], ["proc"], ["lib"], ["lib64"]]

/-- `SafetyValidator::get_allowed_paths`: the user's home directory (a
parameter here, `dirs::home_dir()` in the source) joined with the six
document-class folders; the two `cfg!` branches list the same folders. -/
def get_allowed_paths (home : RPath) : List RPath :=
  [home ++ ["Documents"], home ++ ["Desktop"], home ++ ["Downloads"],
   home ++ ["Pictures"], home ++ ["Videos"], home ++ ["Music"]]

/-- `SafetyValidator::new`, parametrised by the OS flag and home directory
that the source reads from the environment. -/
def SafetyValidator.new (windows : Bool) (home : RPath) : SafetyValidator :=
  { protected_paths := get_protected_paths windows
    allowed_paths := get_allowed_paths home
    system_extensions := ["sys", "dll", "exe"] }

/-- `SafetyValidator::is_protected`: the path starts with some protected
root. -/
def SafetyValidator.is_protected (v : SafetyValidator) (p : RPath) : Bool :=
  v.protected_paths.any (fun r => rustStartsWith r p)

/-- `SafetyValidator::is_allowed`: the path starts with some allowed root. -/
def SafetyValidator.is_allowed (v : SafetyValidator) (p : RPath) : Bool :=
  v.allowed_paths.any (fun r => rustStartsWith r p)

/-- `SafetyValidator::is_system_file`: the path's extension, lowercased, is
one of the system extensions. -/
def SafetyValidator.is_system_file (v : SafetyValidator) (p : RPath) : Bool :=
  match pathExtension p with
  | some ext => v.system_extensions.contains (strToLower ext)
  | none => false

/-- The filesystem as the validator observes it: `Path::canonicalize`,
returning the canonical form of a path that resolves and `none` (Rust
`Err`) for one that does not. -/
structure Fs where
  canonicalize : RPath → Option RPath

/-- The canonicalization step at the top of `check_path`: the canonical
form of the path, or — when the path itself does not resolve — of its
parent; `none` when neither resolves (the early `return Blocked` paths of
the source). -/
def canonicalResolve (fs : Fs) (path : RPath) : Option RPath :=
  match fs.canonicalize path with
  | some p => some p
  | none =>
    match rustParent path with
    | some parent => fs.canonicalize parent
    | none => none

/-- `SafetyValidator::check_path`: canonicalize the path, falling back to
the parent when the path itself does not resolve (Blocked when neither
resolves), then classify the canonical form against the protected set, the
allowed set and the system-extension set, in that order. -/
def SafetyValidator.check_path (v : SafetyValidator) (fs : Fs) (path : RPath) :
    SafetyLevel :=
  match canonicalResolve fs path with
  | none => .Blocked
  | some canonical =>
    if v.is_protected canonical then .Blocked
    else if v.is_allowed canonical then
      if v.is_system_file canonical then .NeedsConfirmation else .Safe
    else .NeedsConfirmation

/-- `SafetyValidator::is_system_critical`. -/
def SafetyValidator.is_system_critical (v : SafetyValidator) (fs : Fs)
    (path : RPath) : Bool :=
  v.check_path fs path = SafetyLevel.Blocked

/-- The outcome of one external program invocation
(`std::process::Command::output()`): `Ok` with the exit-status flag and
stderr text, or `Err` with the spawn error's message. -/
inductive ProcOutput where
  | ok (success : Bool) (stderr : String)
  | err (msg : String)
  deriving DecidableEq, Repr

/-- The two registry hives the startup handlers address. -/
inductive Hive where
  | hkcu
  | hklm
  deriving DecidableEq, Repr

/-- The PowerShell scripts receiver.rs builds, identified by shape and the
data interpolated into them (the literal script text carries no further
information the model needs). -/
inductive PsScript where
  | addRun (name : String) (path : String)
  | removeRun (hive : Hive) (name : String)
  | setApproved (hive : Hive) (name : String) (enabled : Bool)
  | avNormalize
  | cleanup
  | optimize
  | browserCache
  deriving DecidableEq, Repr

/-- The ambient OS as `execute` observes it during one call: the clock
(`Instant::now`, in nanoseconds), the fresh UUID, the `sysinfo` process-name
lookup, and the outcome of each external invocation or filesystem probe. -/
structure Env where
  now : Nat
  freshId : String
  procName : Nat → Option String
  taskkill : Nat → ProcOutput
  powershell : PsScript → ProcOutput
  flushdns : ProcOutput
  appdata : Option String
  programData : Option String
  startupFileExists : String → Bool
  removeFile : String → Option String

/-- The broadcast messages receiver.rs pushes through
`IpcServer::broadcast_global`: a `confirm_required` payload or an
`execution_result` payload (`pid` is present only on KillProcess results). -/
inductive Event where
  | confirmRequired (command_id : String) (command_name : String)
      (details : String)
  | executionResult (command : String) (pid : Option Nat) (status : String)
      (error : Option String) (details : Option String)
  deriving DecidableEq, Repr

/-- What one `execute` call produced: the kill-history after the call, the
events broadcast, and the pids actually handed to the platform kill tool. -/
structure ExecOut where
  history : List Nat
  events : List Event
  kills : List Nat
  deriving DecidableEq, Repr

/-- `Duration::from_secs(10)` in the clock's nanosecond unit. -/
def tenSeconds : Nat := 10000000000

/-- `PROTECTED_PROCESSES` from receiver.rs. -/
def PROTECTED_PROCESSES : List String :=
  ["csrss.exe", "wininit.exe", "lsass.exe", "services.exe", "smss.exe",
   "winlogon.exe"]

/-- Rust `str::strip_suffix`: the prefix before `suffix` when the string
ends with it, `none` otherwise. -/
def stripSuffixOpt (s : String) (suffix : String) : Option String :=
  if strEndsWith s suffix then some (strDropRight s suffix.data.length)
  else none

/-- The `KillProcess` arm of `execute` (receiver.rs, windows body): prune
the kill history to the last ten seconds, rate-limit at three recorded
kills, check the resolved process name against the protected list (an
unresolved name passes: "we let taskkill handle it"), and only then record
the attempt and invoke the kill tool.  Exactly one `execution_result` is
broadcast, its `error` field present only when the accumulated message is
non-empty. -/
def killProcessExec (env : Env) (hist : List Nat) (pid : Nat) : ExecOut :=
  let now := env.now
  let hist1 := hist.filter (fun t => now - t < tenSeconds)
  let step : List Nat × String × String × List Nat :=
    if hist1.length ≥ 3 then
      (hist1, "error", "Rate limit exceeded: >3 kills in 10s", [])
    else
      let protErr : Option String :=
        match env.procName pid with
        | some name =>
            let lower := strToLower name
            if PROTECTED_PROCESSES.contains lower then
              some ("Protected system process: " ++ lower)
            else none
        | none => none
      match protErr with
      | some msg => (hist1, "error", msg, [])
      | none =>
        let hist2 := hist1 ++ [now]
        match env.taskkill pid with
        | .ok true _ => (hist2, "success", "", [pid])
        | .ok false stderr => (hist2, "error", strTrim stderr, [pid])
        | .err e => (hist2, "error", e, [pid])
  { history := step.1
    events := [.executionResult "KillProcess" (some pid) step.2.1
      (if step.2.2.1 = "" then none else some step.2.2.1) none]
    kills := step.2.2.2 }

/-- The startup-folder loop inside the `(Folder)` branch of StartupRemove:
walk the candidate folders, delete the first file that exists, and report
"Startup file not found." when none does. -/
def scanStartupFolders (env : Env) (realName : String) :
    List String → String × Option String
  | [] => ("error", some "Startup file not found.")
  | folder :: rest =>
    let p := folder ++ "\\" ++ realName
    if env.startupFileExists p then
      match env.removeFile p with
      | none => ("success", none)
      | some e => ("error", some ("Failed to delete file: " ++ e))
    else scanStartupFolders env realName rest

/-- The `StartupRemove` arm of `execute`: dispatch on the name's suffix to
one of the two hives, the startup folder, or the suffix-less fallback whose
outcome is discarded.  `none` embeds the panic of
`strip_suffix(" (…)").unwrap()` on a name that ends with `"(…)"` but not
`" (…)"`. -/
def startupRemoveExec (env : Env) (name : String) :
    Option (String × Option String) :=
  if strEndsWith name "(HKCU)" then
    match stripSuffixOpt name " (HKCU)" with
    | none => none
    | some realName =>
      match env.powershell (.removeRun .hkcu realName) with
      | .ok true _ => some ("success", none)
      | .ok false stderr => some ("error", some (strTrim stderr))
      | .err e => some ("error", some e)
  else if strEndsWith name "(HKLM)" then
    match stripSuffixOpt name " (HKLM)" with
    | none => none
    | some realName =>
      match env.powershell (.removeRun .hklm realName) with
      | .ok true _ => some ("success", none)
      | .ok false _ =>
          some ("error", some
            "Failed to remove HKLM entry. Ensure Fluffy is running as Administrator.")
      | .err e => some ("error", some e)
  else if strEndsWith name "(Folder)" then
    match stripSuffixOpt name " (Folder)" with
    | none => none
    | some realName =>
      let folders : List String :=
        [env.appdata.map
           (fun s => s ++ "\\Microsoft\\Windows\\Start Menu\\Programs\\Startup"),
         env.programData.map
           (fun s => s ++ "\\Microsoft\\Windows\\Start Menu\\Programs\\Startup")
        ].filterMap id
      some (scanStartupFolders env realName folders)
  else
    let _ := env.powershell (.removeRun .hkcu name)
    some ("success", none)

/-- The `StartupToggle` arm of `execute`: registry-suffixed names flip the
`StartupApproved` flag; anything else is an error.  `none` embeds the same
`strip_suffix…unwrap()` panic as removal. -/
def startupToggleExec (env : Env) (name : String) (enabled : Bool) :
    Option (String × Option String) :=
  if strEndsWith name "(HKCU)" || strEndsWith name "(HKLM)" then
    let hive : Hive := if strEndsWith name "(HKCU)" then .hkcu else .hklm
    let realName? :=
      if strEndsWith name "(HKCU)" then stripSuffixOpt name " (HKCU)"
      else stripSuffixOpt name " (HKLM)"
    match realName? with
    | none => none
    | some realName =>
      match env.powershell (.setApproved hive realName enabled) with
      | .ok true _ => some ("success", none)
      | .ok false stderr => some ("error", some (strTrim stderr))
      | .err e => some ("error", some e)
  else
    some ("error", some "Only registry startup items can be toggled currently.")

/-- `execute` from receiver.rs (the windows bodies, which carry every guard
the claims are about): each handled command broadcasts one
`execution_result`; the final wildcard arm `_ => {}` does nothing, so
`OpenPath`, `RequestCleanup` and the meta commands produce no event at all.
`none` embeds a panic inside a handler. -/
def execute (env : Env) (hist : List Nat) : Command → Option ExecOut
  | .KillProcess pid => some (killProcessExec env hist pid)
  | .StartupAdd name path =>
    let (status, error) :=
      match env.powershell (.addRun name path) with
      | .ok true _ => ("success", none)
      | .ok false stderr => ("error", some (strTrim stderr))
      | .err e => ("error", some e)
    some { history := hist
           events := [.executionResult "StartupAdd" none status error none]
           kills := [] }
  | .StartupRemove name =>
    match startupRemoveExec env name with
    | none => none
    | some (status, error) =>
      some { history := hist
             events := [.executionResult "StartupRemove" none status error none]
             kills := [] }
  | .StartupToggle name enabled =>
    match startupToggleExec env name enabled with
    | none => none
    | some (status, error) =>
      some { history := hist
             events := [.executionResult "StartupToggle" none status error none]
             kills := [] }
  | .NormalizeSystem =>
    let _ := env.powershell .avNormalize
    let _ := env.powershell .cleanup
    let _ := env.flushdns
    let _ := env.powershell .optimize
    let _ := env.powershell .browserCache
    some { history := hist
           events := [.executionResult "NormalizeSystem" none "success" none
             (some "System normalization and optimization pulse complete.")]
           kills := [] }
  | _ => some { history := hist, events := [], kills := [] }

/-- The process-wide mutable state receiver.rs keeps in statics: the
`PENDING` confirmation map, the `KILL_HISTORY` window, and the
`IS_UI_ACTIVE` flag. The map is embedded as an association list with
unique keys (`HashMap` semantics via the operations below). -/
structure SysState where
  pending : List (String × Command)
  history : List Nat
  uiActive : Bool
  deriving DecidableEq, Repr

/-- `HashMap::get`-style lookup on the association list. -/
def mapLookup (k : String) : List (String × Command) → Option Command
  | [] => none
  | (k2, v) :: rest => if k2 = k then some v else mapLookup k rest

/-- `HashMap::remove`: drop the entry with the given key, if any. -/
def mapErase (k : String) (m : List (String × Command)) :
    List (String × Command) :=
  m.filter (fun p => p.1 ≠ k)

/-- `HashMap::insert`: bind the key, replacing any previous binding. -/
def mapInsert (k : String) (v : Command) (m : List (String × Command)) :
    List (String × Command) :=
  (k, v) :: mapErase k m

/-- `format!("\x7b:?\x7d", cmd)`: the Debug rendering of a command, used as
the `command_name` field of a `confirm_required` event (inner-quote
escaping of Debug string fields is elided; no claim inspects this text). -/
def commandName : Command → String
  | .KillProcess pid => "KillProcess \x7b pid: " ++ toString pid ++ " \x7d"
  | .RequestCleanup => "RequestCleanup"
  | .OpenPath p => "OpenPath \x7b path: \"" ++ p ++ "\" \x7d"
  | .NormalizeSystem => "NormalizeSystem"
  | .StartupAdd n p =>
      "StartupAdd \x7b name: \"" ++ n ++ "\", path: \"" ++ p ++ "\" \x7d"
  | .StartupRemove n => "StartupRemove \x7b name: \"" ++ n ++ "\" \x7d"
  | .StartupToggle n e =>
      "StartupToggle \x7b name: \"" ++ n ++ "\", enabled: " ++ toString e ++
      " \x7d"
  | .Confirm id => "Confirm \x7b command_id: \"" ++ id ++ "\" \x7d"
  | .Cancel id => "Cancel \x7b command_id: \"" ++ id ++ "\" \x7d"
  | .SetUiActive a => "SetUiActive \x7b active: " ++ toString a ++ " \x7d"

/-- `handle_command` from receiver.rs: `Confirm` consumes the pending entry
and executes it (a miss is a no-op); `Cancel` just removes; `SetUiActive`
stores the flag; everything else goes through `evaluate` — Allow executes
immediately, RequireConfirmation registers the command under a fresh id and
broadcasts `confirm_required`, Deny only logs.  The result couples the new
state with the events broadcast and the kills issued; `none` embeds a panic
(including the undefined behavior of `evaluate`'s missing arm). -/
def handle_command (env : Env) (st : SysState) (cmd : Command) :
    Option (SysState × List Event × List Nat) :=
  match cmd with
  | .Confirm command_id =>
    match mapLookup command_id st.pending with
    | some original =>
      let pending2 := mapErase command_id st.pending
      match execute env st.history original with
      | some out =>
          some ({ st with pending := pending2, history := out.history },
                out.events, out.kills)
      | none => none
    | none => some (st, [], [])
  | .Cancel command_id =>
    some ({ st with pending := mapErase command_id st.pending }, [], [])
  | .SetUiActive active => some ({ st with uiActive := active }, [], [])
  | other =>
    match evaluate other with
    | some .Allow =>
      match execute env st.history other with
      | some out => some ({ st with history := out.history }, out.events,
          out.kills)
      | none => none
    | some (.RequireConfirmation reason) =>
      let id := env.freshId
      some ({ st with pending := mapInsert id other st.pending },
            [.confirmRequired id (commandName other) reason], [])
    | some (.Deny _) => some (st, [], [])
    | none => none

/-! ## Observation helpers shared by the theorems -/

/-- Number of `execution_result` events in a broadcast list. -/
def erCount (evs : List Event) : Nat :=
  (evs.filter (fun e =>
    match e with
    | .executionResult _ _ _ _ _ => true
    | _ => false)).length

/-- The commands `execute` has a handler arm for (everything else falls
into the final wildcard arm, which does nothing). -/
def isHandled : Command → Bool
  | .KillProcess _ | .StartupAdd _ _ | .StartupRemove _
  | .StartupToggle _ _ | .NormalizeSystem => true
  | _ => false

/-- The `status` field of the single `execution_result` an `ExecOut`
carries, if it carries exactly one event. -/
def statusOfOut (o : ExecOut) : Option String :=
  match o.events with
  | [.executionResult _ _ s _ _] => some s
  | _ => none

/-- The kill list of an optional execution outcome. -/
def killsOf (r : Option ExecOut) : List Nat :=
  match r with
  | some o => o.kills
  | none => []

/-- The events of an optional `handle_command` outcome. -/
def eventsOfH (r : Option (SysState × List Event × List Nat)) : List Event :=
  match r with
  | some (_, evs, _) => evs
  | none => []

/-- A fully concrete environment used by the witnesses: no process
resolves, the kill tool succeeds, every PowerShell invocation fails. -/
def demoEnv : Env :=
  { now := 0
    freshId := "id-1"
    procName := fun _ => none
    taskkill := fun _ => .ok true ""
    powershell := fun _ => .err "powershell failed"
    flushdns := .err "flush failed"
    appdata := none
    programData := none
    startupFileExists := fun _ => false
    removeFile := fun _ => none }

/-- A concrete empty state used by witnesses and counterexamples. -/
def st0 : SysState := { pending := [], history := [], uiActive := false }

/-! ## Claim theorems -/

/-- C7: for every pid below 100, `evaluate(KillProcess)` is Deny; for every
pid of at least 100 it is RequireConfirmation. -/
theorem c7_killprocess_policy (pid : Nat) :
    (pid < 100 →
      evaluate (.KillProcess pid) =
        some (.Deny "System process protection")) ∧
    (100 ≤ pid →
      evaluate (.KillProcess pid) =
        some (.RequireConfirmation "Killing a process may cause data loss")) := by
  refine ⟨fun h => ?_, fun h => ?_⟩
  · simp [evaluate, h]
  · simp [evaluate, Nat.not_lt.mpr h]

/-- Witness for C7 at pids 99 and 100. -/
theorem c7_killprocess_policy_witness :
    (99 < 100 ∧
      evaluate (.KillProcess 99) = some (.Deny "System process protection")) ∧
    (100 ≤ 100 ∧
      evaluate (.KillProcess 100) =
        some (.RequireConfirmation "Killing a process may cause data loss")) :=
  ⟨⟨by decide, (c7_killprocess_policy 99).1 (by decide)⟩,
   ⟨by decide, (c7_killprocess_policy 100).2 (by decide)⟩⟩

/-- C5 (code bug): the policy match in policy.rs covers StartupAdd and
StartupRemove but has no arm for StartupToggle at all — the Rust match is
non-exhaustive, so `evaluate` yields no decision there, against the spec
table's RequireConfirmation. -/
theorem c5_startup_toggle_no_decision :
    evaluate (Command.StartupToggle "App (HKCU)" true) = none := rfl

/-- C2 (code bug): `execute` on NormalizeSystem discards the outcome of
every sub-operation (each is a discarded `let`), so it broadcasts status
"success" with the fixed detail text for every environment — including any
in which a sub-operation fails; no input ever yields `partial_failure`. -/
theorem c2_normalize_always_success (env : Env) (hist : List Nat) :
    execute env hist Command.NormalizeSystem =
      some { history := hist
             events := [.executionResult "NormalizeSystem" none "success" none
               (some "System normalization and optimization pulse complete.")]
             kills := [] } := rfl

/-- C10: a StartupRemove whose name carries none of the three recognized
suffixes takes the fallback branch, whose PowerShell outcome is discarded:
the broadcast result is always status "success" with no error. -/
theorem c10_startup_remove_fallback (env : Env) (hist : List Nat)
    (name : String)
    (h1 : strEndsWith name "(HKCU)" = false)
    (h2 : strEndsWith name "(HKLM)" = false)
    (h3 : strEndsWith name "(Folder)" = false) :
    execute env hist (.StartupRemove name) =
      some { history := hist
             events := [.executionResult "StartupRemove" none "success" none
               none]
             kills := [] } := by
  simp [execute, startupRemoveExec, h1, h2, h3]

/-- Witness for C10: a suffix-less name, in an environment whose PowerShell
invocations all fail — the broadcast is still a plain success. -/
theorem c10_startup_remove_fallback_witness :
    (strEndsWith "LegacyApp" "(HKCU)" = false ∧
     strEndsWith "LegacyApp" "(HKLM)" = false ∧
     strEndsWith "LegacyApp" "(Folder)" = false ∧
     demoEnv.powershell (.removeRun .hkcu "LegacyApp") =
       .err "powershell failed") ∧
    execute demoEnv [] (.StartupRemove "LegacyApp") =
      some { history := []
             events := [.executionResult "StartupRemove" none "success" none
               none]
             kills := [] } :=
  ⟨⟨by decide, by decide, by decide, rfl⟩,
   c10_startup_remove_fallback demoEnv [] "LegacyApp" (by decide) (by decide)
     (by decide)⟩

/-- Every branch of the KillProcess handler broadcasts exactly one
`execution_result`. -/
theorem killProcessExec_one_event (env : Env) (hist : List Nat) (pid : Nat) :
    erCount (killProcessExec env hist pid).events = 1 := rfl

/-- C1 counterexample: `OpenPath{path:"/tmp/x"}` is allowed by the policy
and dispatched straight to `execute`, but `execute` has no OpenPath arm —
the command falls into the wildcard arm and not a single event (in
particular no `execution_result` with status "success") is broadcast. -/
theorem c1_counterexample :
    evaluate (.OpenPath "/tmp/x") = some .Allow ∧
    handle_command demoEnv st0 (.OpenPath "/tmp/x") = some (st0, [], []) ∧
    eventsOfH (handle_command demoEnv st0 (.OpenPath "/tmp/x")) = [] :=
  ⟨rfl, rfl, rfl⟩

/-- C1 as amended: OpenPath is allowed by the policy and dispatched with no
confirmation round-trip, but the dispatch broadcasts nothing because
`execute` has no handler for it; every command `execute` does handle
broadcasts exactly one `execution_result` whenever its handler completes. -/
theorem c1_dispatch_and_single_result :
    (∀ p, evaluate (.OpenPath p) = some .Allow) ∧
    (∀ env st p, handle_command env st (.OpenPath p) = some (st, [], [])) ∧
    (∀ env hist cmd, isHandled cmd = true →
      ∀ out, execute env hist cmd = some out → erCount out.events = 1) := by
  refine ⟨fun p => rfl, fun env st p => rfl, fun env hist cmd hc out he => ?_⟩
  cases cmd <;> simp [isHandled] at hc
  case KillProcess pid =>
    rw [show execute env hist (.KillProcess pid) =
      some (killProcessExec env hist pid) from rfl] at he
    cases he
    exact killProcessExec_one_event env hist pid
  case StartupAdd name path =>
    simp only [execute] at he
    cases he
    rfl
  case StartupRemove name =>
    simp only [execute] at he
    rcases hsr : startupRemoveExec env name with _ | ⟨s, er⟩ <;> rw [hsr] at he
    · cases he
    · cases he
      rfl
  case StartupToggle name enabled =>
    simp only [execute] at he
    rcases hst : startupToggleExec env name enabled with _ | ⟨s, er⟩ <;>
      rw [hst] at he
    · cases he
    · cases he
      rfl
  case NormalizeSystem =>
    simp only [execute] at he
    cases he
    rfl

/-- Witness for C1: the NormalizeSystem handler, run in the concrete demo
environment, broadcasts exactly one execution result. -/
theorem c1_dispatch_and_single_result_witness :
    isHandled Command.NormalizeSystem = true ∧
    erCount ({ history := []
               events := [.executionResult "NormalizeSystem" none "success"
                 none
                 (some "System normalization and optimization pulse complete.")]
               kills := [] } : ExecOut).events = 1 :=
  ⟨by decide,
   c1_dispatch_and_single_result.2.2 demoEnv [] Command.NormalizeSystem
     (by decide) _ rfl⟩

/-- C4 counterexample: in the demo environment pid 500 resolves to no live
process, yet executing `KillProcess{pid:500}` issues the kill — the
unknown-process ambiguity is not treated as the more restrictive outcome. -/
theorem c4_counterexample :
    demoEnv.procName 500 = none ∧
    killsOf (execute demoEnv [] (.KillProcess 500)) = [500] ∧
    killsOf (execute demoEnv [] (.KillProcess 500)) ≠ [] :=
  ⟨rfl, by decide, by decide⟩

/-- C4 as amended: when the live process name for the pid cannot be
resolved, the protected-process guard is skipped rather than failing
closed — if the rate limit admits the attempt, the kill is issued for the
unresolvable target (left to the platform kill tool) and recorded in the
window. -/
theorem c4_unknown_process_kill_proceeds (env : Env) (hist : List Nat)
    (pid : Nat) (hname : env.procName pid = none)
    (hrl : (hist.filter (fun t => env.now - t < tenSeconds)).length < 3) :
    ∃ out, execute env hist (.KillProcess pid) = some out ∧
      out.kills = [pid] ∧
      out.history =
        hist.filter (fun t => env.now - t < tenSeconds) ++ [env.now] := by
  refine ⟨killProcessExec env hist pid, rfl, ?_⟩
  simp only [killProcessExec, hname]
  rw [if_neg (Nat.not_le.mpr hrl)]
  rcases env.taskkill pid with ⟨s, e⟩ | e
  · cases s <;> exact ⟨rfl, rfl⟩
  · exact ⟨rfl, rfl⟩

/-- Witness for C4: pid 500 in the demo environment, empty history. -/
theorem c4_unknown_process_kill_proceeds_witness :
    demoEnv.procName 500 = none ∧
    (([] : List Nat).filter
      (fun t => demoEnv.now - t < tenSeconds)).length < 3 ∧
    ∃ out, execute demoEnv [] (.KillProcess 500) = some out ∧
      out.kills = [500] ∧
      out.history = ([] : List Nat).filter
        (fun t => demoEnv.now - t < tenSeconds) ++ [demoEnv.now] :=
  ⟨rfl, by decide,
   c4_unknown_process_kill_proceeds demoEnv [] 500 rfl (by decide)⟩

/-- Concrete validator for the safety counterexamples: linux roots, home
directory /home/u. -/
def vC3 : SafetyValidator := SafetyValidator.new false ["home", "u"]

/-- Concrete filesystem for C3: only /home/u/Documents resolves (to
itself); the file about to be created under it does not exist yet. -/
def fsC3 : Fs :=
  ⟨fun p =>
    if p = ["home", "u", "Documents"] then some ["home", "u", "Documents"]
    else none⟩

/-- The non-existent path of the C3 counterexample. -/
def pC3 : RPath := ["home", "u", "Documents", "evil.exe"]

/-- C3 counterexample: a non-existent path with extension "exe", whose
parent exists, canonicalizes under an allowed root and is not protected —
the claim expects NeedsConfirmation, but check_path classifies by the
canonical parent (which has no extension) and returns Safe. -/
theorem c3_counterexample :
    fsC3.canonicalize pC3 = none ∧
    rustParent pC3 = some ["home", "u", "Documents"] ∧
    fsC3.canonicalize ["home", "u", "Documents"] =
      some ["home", "u", "Documents"] ∧
    vC3.is_protected ["home", "u", "Documents"] = false ∧
    vC3.is_allowed ["home", "u", "Documents"] = true ∧
    pathExtension pC3 = some "exe" ∧
    vC3.system_extensions.contains "exe" = true ∧
    vC3.check_path fsC3 pC3 ≠ SafetyLevel.NeedsConfirmation ∧
    vC3.check_path fsC3 pC3 = SafetyLevel.Safe := by
  refine ⟨rfl, rfl, rfl, by decide, by decide, by decide, by decide, ?_, ?_⟩ <;>
    decide

/-- C3 as amended: for a path that does not resolve, whose parent does and
canonicalizes neither under a protected root but under an allowed one,
check_path returns NeedsConfirmation or Safe according to the extension of
the canonical parent (never of the original path) — and never Blocked. -/
theorem c3_nonexistent_classified_by_parent (v : SafetyValidator) (fs : Fs)
    (path par pp : RPath)
    (h1 : fs.canonicalize path = none)
    (h2 : rustParent path = some par)
    (h3 : fs.canonicalize par = some pp)
    (h4 : v.is_protected pp = false)
    (h5 : v.is_allowed pp = true) :
    v.check_path fs path =
      (if v.is_system_file pp then SafetyLevel.NeedsConfirmation
       else SafetyLevel.Safe) ∧
    v.check_path fs path ≠ SafetyLevel.Blocked := by
  have hres : canonicalResolve fs path = some pp := by
    simp [canonicalResolve, h1, h2, h3]
  have heq : v.check_path fs path =
      (if v.is_system_file pp then SafetyLevel.NeedsConfirmation
       else SafetyLevel.Safe) := by
    simp [SafetyValidator.check_path, hres, h4, h5]
  refine ⟨heq, ?_⟩
  rw [heq]
  split <;> simp

/-- Witness for C3 as amended, at the counterexample instance. -/
theorem c3_nonexistent_classified_by_parent_witness :
    (fsC3.canonicalize pC3 = none ∧
     rustParent pC3 = some ["home", "u", "Documents"] ∧
     fsC3.canonicalize ["home", "u", "Documents"] =
       some ["home", "u", "Documents"] ∧
     vC3.is_protected ["home", "u", "Documents"] = false ∧
     vC3.is_allowed ["home", "u", "Documents"] = true) ∧
    (vC3.check_path fsC3 pC3 =
      (if vC3.is_system_file ["home", "u", "Documents"] then
        SafetyLevel.NeedsConfirmation
       else SafetyLevel.Safe) ∧
     vC3.check_path fsC3 pC3 ≠ SafetyLevel.Blocked) :=
  ⟨⟨rfl, rfl, rfl, by decide, by decide⟩,
   c3_nonexistent_classified_by_parent vC3 fsC3 pC3
     ["home", "u", "Documents"] ["home", "u", "Documents"]
     rfl rfl rfl (by decide) (by decide)⟩

/-- C9: whenever the canonical resolution of a path lies under a protected
root, check_path returns Blocked — the protected check runs before the
allowed check, so this holds regardless of the allowed set. -/
theorem c9_protected_always_blocked (v : SafetyValidator) (fs : Fs)
    (path p : RPath)
    (hres : canonicalResolve fs path = some p)
    (hprot : v.is_protected p = true) :
    v.check_path fs path = SafetyLevel.Blocked := by
  simp [SafetyValidator.check_path, hres, hprot]

/-- The identity filesystem used by the C9 witness: every path is already
canonical. -/
def fsId : Fs := ⟨fun p => some p⟩

/-- A validator whose allowed roots sit inside a protected root (home
directory under /etc), used to witness "Blocked even if also allowed". -/
def vC9 : SafetyValidator := SafetyValidator.new false ["etc", "home"]

/-- Witness for C9: a path under both a protected root and an allowed root
is Blocked. -/
theorem c9_protected_always_blocked_witness :
    (canonicalResolve fsId ["etc", "home", "Documents", "notes.txt"] =
       some ["etc", "home", "Documents", "notes.txt"] ∧
     vC9.is_protected ["etc", "home", "Documents", "notes.txt"] = true ∧
     vC9.is_allowed ["etc", "home", "Documents", "notes.txt"] = true) ∧
    vC9.check_path fsId ["etc", "home", "Documents", "notes.txt"] =
      SafetyLevel.Blocked :=
  ⟨⟨rfl, by decide, by decide⟩,
   c9_protected_always_blocked vC9 fsId
     ["etc", "home", "Documents", "notes.txt"]
     ["etc", "home", "Documents", "notes.txt"] rfl (by decide)⟩

/-- Looking a key up after erasing it always misses. -/
theorem mapLookup_mapErase (k : String) (m : List (String × Command)) :
    mapLookup k (mapErase k m) = none := by
  induction m with
  | nil => rfl
  | cons p rest ih =>
    by_cases hk : p.1 = k
    · simpa [mapErase, List.filter_cons, hk] using ih
    · simpa [mapErase, List.filter_cons, hk, mapLookup] using ih

/-- C8: the confirmation registry is single-consumption.  A Confirm for an
unregistered id does nothing; resolving a registered id removes it, so a
second Confirm of the same id does nothing; a Cancel removes the pending
entry, so a later Confirm of that id does nothing. -/
theorem c8_confirm_single_consumption :
    (∀ env st id, mapLookup id st.pending = none →
      handle_command env st (.Confirm id) = some (st, [], [])) ∧
    (∀ env st id cmd st2 evs ks,
      mapLookup id st.pending = some cmd →
      handle_command env st (.Confirm id) = some (st2, evs, ks) →
      mapLookup id st2.pending = none ∧
      ∀ env2, handle_command env2 st2 (.Confirm id) = some (st2, [], [])) ∧
    (∀ env st id,
      handle_command env st (.Cancel id) =
        some ({ st with pending := mapErase id st.pending }, [], []) ∧
      ∀ env2,
        handle_command env2 { st with pending := mapErase id st.pending }
          (.Confirm id) =
          some ({ st with pending := mapErase id st.pending }, [], [])) := by
  refine ⟨fun env st id h => ?_, fun env st id cmd st2 evs ks h he => ?_,
    fun env st id => ⟨rfl, fun env2 => ?_⟩⟩
  · simp [handle_command, h]
  · simp only [handle_command, h] at he
    rcases hex : execute env st.history cmd with _ | out <;> rw [hex] at he
    · cases he
    · have h2 := Option.some.inj he
      have hp : mapErase id st.pending = st2.pending :=
        congrArg (fun q => q.1.pending) h2
      have hnone : mapLookup id st2.pending = none := by
        rw [← hp]; exact mapLookup_mapErase id st.pending
      exact ⟨hnone, fun env2 => by simp [handle_command, hnone]⟩
  · simp [handle_command, mapLookup_mapErase]

/-- State with one pending confirmation, used by the C8 witness. -/
def stC8 : SysState :=
  { pending := [("abc", Command.RequestCleanup)], history := []
    uiActive := false }

/-- Witness for C8: a miss on an unregistered id; consumption of "abc"
followed by a second Confirm that misses; a Cancel followed by a Confirm
that misses. -/
theorem c8_confirm_single_consumption_witness :
    (mapLookup "zzz" st0.pending = none ∧
     handle_command demoEnv st0 (.Confirm "zzz") = some (st0, [], [])) ∧
    (mapLookup "abc" stC8.pending = some Command.RequestCleanup ∧
     handle_command demoEnv stC8 (.Confirm "abc") = some (st0, [], []) ∧
     mapLookup "abc" st0.pending = none ∧
     handle_command demoEnv st0 (.Confirm "abc") = some (st0, [], [])) ∧
    (handle_command demoEnv stC8 (.Cancel "abc") =
       some ({ stC8 with pending := mapErase "abc" stC8.pending }, [], []) ∧
     handle_command demoEnv
       { stC8 with pending := mapErase "abc" stC8.pending } (.Confirm "abc") =
       some ({ stC8 with pending := mapErase "abc" stC8.pending }, [], [])) :=
  ⟨⟨by decide, c8_confirm_single_consumption.1 demoEnv st0 "zzz" (by decide)⟩,
   ⟨by decide, by decide,
    (c8_confirm_single_consumption.2.1 demoEnv stC8 "abc"
      Command.RequestCleanup st0 [] [] (by decide) (by decide)).1,
    (c8_confirm_single_consumption.2.1 demoEnv stC8 "abc"
      Command.RequestCleanup st0 [] [] (by decide) (by decide)).2 demoEnv⟩,
   ⟨(c8_confirm_single_consumption.2.2 demoEnv stC8 "abc").1,
    (c8_confirm_single_consumption.2.2 demoEnv stC8 "abc").2 demoEnv⟩⟩

/-! ## Rate limiting (C6) -/

/-- One KillProcess execution after another, as receiver.rs performs them
against the shared KILL_HISTORY: each step runs `killProcessExec` on the
history the previous step left, threading its own environment (its own
`Instant::now` and OS responses).  Returns the final history and the times
at which a kill was actually issued. -/
def killTrace : List Nat → List (Env × Nat) → List Nat × List Nat
  | hist, [] => (hist, [])
  | hist, (env, pid) :: rest =>
    let out := killProcessExec env hist pid
    let r := killTrace out.history rest
    (r.1, (if out.kills.isEmpty then [] else [env.now]) ++ r.2)

/-- The clocks of a step sequence are nondecreasing and bounded below — the
monotonicity Rust's `Instant::now` guarantees across sequential calls. -/
def monoFromB : Nat → List (Env × Nat) → Bool
  | _, [] => true
  | n, (e, _) :: rest => decide (n ≤ e.now) && monoFromB e.now rest

/-- How many of the given times fall inside the ten-second window starting
at `s`. -/
def winCount (ts : List Nat) (s : Nat) : Nat :=
  (ts.filter (fun t => decide (s ≤ t) && decide (t < s + tenSeconds))).length

/-- In the guard that resolves a live process name, the name either misses
or is not protected; and the kill tool reports clean success — the
environment shape of the spec's "distinct non-protected pids" scenario. -/
def killClean (env : Env) (pid : Nat) : Bool :=
  (match env.procName pid with
   | some name => !(PROTECTED_PROCESSES.contains (strToLower name))
   | none => true) &&
  (match env.taskkill pid with
   | .ok true _ => true
   | _ => false)

/-- The broadcast of a clean kill. -/
def killSuccessEvent (pid : Nat) : Event :=
  .executionResult "KillProcess" (some pid) "success" none none

/-- The broadcast of a rate-limited kill attempt. -/
def killRateLimitEvent (pid : Nat) : Event :=
  .executionResult "KillProcess" (some pid) "error"
    (some "Rate limit exceeded: >3 kills in 10s") none

/-- Branch analysis of the KillProcess handler: either no kill is issued
and the history is only pruned, or the pruned history was below the limit
and the attempt is appended and issued. -/
theorem killProcessExec_cases (env : Env) (hist : List Nat) (pid : Nat) :
    ((killProcessExec env hist pid).kills = [] ∧
     (killProcessExec env hist pid).history =
       hist.filter (fun t => decide (env.now - t < tenSeconds))) ∨
    ((hist.filter (fun t => decide (env.now - t < tenSeconds))).length < 3 ∧
     (killProcessExec env hist pid).kills = [pid] ∧
     (killProcessExec env hist pid).history =
       hist.filter (fun t => decide (env.now - t < tenSeconds)) ++
         [env.now]) := by
  simp only [killProcessExec]
  by_cases h3 :
      (hist.filter (fun t => decide (env.now - t < tenSeconds))).length ≥ 3
  · left
    rw [if_pos h3]
    exact ⟨rfl, rfl⟩
  · rw [if_neg h3]
    rcases hpn : env.procName pid with _ | name
    · simp only [hpn]
      rcases env.taskkill pid with ⟨s, e⟩ | e
      · cases s
        · exact Or.inr ⟨Nat.lt_of_not_le h3, rfl, rfl⟩
        · exact Or.inr ⟨Nat.lt_of_not_le h3, rfl, rfl⟩
      · exact Or.inr ⟨Nat.lt_of_not_le h3, rfl, rfl⟩
    · simp only [hpn]
      by_cases hc : PROTECTED_PROCESSES.contains (strToLower name) = true
      · rw [if_pos hc]
        exact Or.inl ⟨rfl, rfl⟩
      · rw [if_neg hc]
        rcases env.taskkill pid with ⟨s, e⟩ | e
        · cases s
          · exact Or.inr ⟨Nat.lt_of_not_le h3, rfl, rfl⟩
          · exact Or.inr ⟨Nat.lt_of_not_le h3, rfl, rfl⟩
        · exact Or.inr ⟨Nat.lt_of_not_le h3, rfl, rfl⟩

/-- A clean, under-the-limit kill attempt: the attempt is recorded and the
kill issued with a success broadcast. -/
theorem killProcessExec_clean_step (env : Env) (hist : List Nat) (pid : Nat)
    (hclean : killClean env pid = true)
    (hlen : (hist.filter
      (fun t => decide (env.now - t < tenSeconds))).length < 3) :
    killProcessExec env hist pid =
      { history :=
          hist.filter (fun t => decide (env.now - t < tenSeconds)) ++
            [env.now]
        events := [killSuccessEvent pid]
        kills := [pid] } := by
  simp only [killClean, Bool.and_eq_true] at hclean
  obtain ⟨hname, hkill⟩ := hclean
  simp only [killProcessExec]
  rw [if_neg (Nat.not_le.mpr hlen)]
  rcases hpn : env.procName pid with _ | name <;> simp only [hpn] at hname ⊢
  · rcases htk : env.taskkill pid with ⟨b, e⟩ | e <;> simp only [htk] at hkill ⊢
    · cases b
      · cases hkill
      · simp [killSuccessEvent]
    · cases hkill
  · rw [Bool.not_eq_eq_eq_not] at hname
    rw [if_neg (by intro h; simp at h hname; exact hname h)]
    rcases htk : env.taskkill pid with ⟨b, e⟩ | e <;> simp only [htk] at hkill ⊢
    · cases b
      · cases hkill
      · simp [killSuccessEvent]
    · cases hkill

/-- A kill attempt against a full window: rate-limited error broadcast, no
kill, no recording. -/
theorem killProcessExec_rate_limited (env : Env) (hist : List Nat)
    (pid : Nat)
    (hlen : 3 ≤ (hist.filter
      (fun t => decide (env.now - t < tenSeconds))).length) :
    killProcessExec env hist pid =
      { history := hist.filter (fun t => decide (env.now - t < tenSeconds))
        events := [killRateLimitEvent pid]
        kills := [] } := by
  simp only [killProcessExec]
  rw [if_pos hlen]
  simp [killRateLimitEvent]

/-- Filtering with a pointwise-weaker predicate keeps at least as many
elements. -/
theorem filter_length_mono {α : Type} (l : List α) (p q : α → Bool)
    (h : ∀ a ∈ l, p a = true → q a = true) :
    (l.filter p).length ≤ (l.filter q).length := by
  induction l with
  | nil => exact Nat.le_refl 0
  | cons a rest ih =>
    have hr : ∀ b ∈ rest, p b = true → q b = true :=
      fun b hb => h b (List.mem_cons_of_mem a hb)
    rw [List.filter_cons, List.filter_cons]
    by_cases hp : p a = true
    · rw [if_pos hp, if_pos (h a (List.mem_cons_self a rest) hp)]
      exact Nat.succ_le_succ (ih hr)
    · rw [if_neg hp]
      by_cases hq : q a = true
      · rw [if_pos hq]
        exact Nat.le_succ_of_le (ih hr)
      · rw [if_neg hq]
        exact ih hr

/-- Window counts distribute over list append. -/
theorem winCount_append (a b : List Nat) (s : Nat) :
    winCount (a ++ b) s = winCount a s + winCount b s := by
  simp [winCount, List.filter_append]

/-- Pruning at a later instant subsumes pruning at an earlier one: the two
prunings compose to the later one alone. -/
theorem filter_absorb (l : List Nat) (N n : Nat) (h : N ≤ n) :
    (l.filter (fun t => decide (N - t < tenSeconds))).filter
      (fun t => decide (n - t < tenSeconds)) =
    l.filter (fun t => decide (n - t < tenSeconds)) := by
  induction l with
  | nil => rfl
  | cons a rest ih =>
    by_cases h1 : N - a < tenSeconds
    · by_cases h2 : n - a < tenSeconds
      · simp [List.filter_cons, h1, h2, ih]
      · simp [List.filter_cons, h1, h2, ih]
    · have h2 : ¬ (n - a < tenSeconds) := by omega
      simp [List.filter_cons, h1, h2, ih]

/-- The sliding-window invariant: starting from a history that is exactly
the still-visible part of the previously issued kills, no ten-second
window ever accumulates more than three issued kills. -/
theorem killTrace_window_inv (steps : List (Env × Nat)) :
    ∀ (prev : List Nat) (N : Nat),
      monoFromB N steps = true →
      (∀ t ∈ prev, t ≤ N) →
      (∀ s, winCount prev s ≤ 3) →
      ∀ s,
        winCount (prev ++
          (killTrace (prev.filter (fun t => decide (N - t < tenSeconds)))
            steps).2) s ≤ 3 := by
  induction steps with
  | nil =>
    intro prev N _ _ hw s
    simpa [killTrace] using hw s
  | cons step rest ih =>
    obtain ⟨env, pid⟩ := step
    intro prev N hm hp hw s
    simp only [monoFromB, Bool.and_eq_true, decide_eq_true_eq] at hm
    obtain ⟨hNn, hmrest⟩ := hm
    have habs := filter_absorb prev N env.now hNn
    simp only [killTrace]
    rcases killProcessExec_cases env
        (prev.filter (fun t => decide (N - t < tenSeconds))) pid with
      ⟨hk, hh⟩ | ⟨hlt, hk, hh⟩
    · rw [hk, hh, habs]
      simp only [List.isEmpty_nil, if_true, List.nil_append]
      exact ih prev env.now hmrest
        (fun t ht => Nat.le_trans (hp t ht) hNn) hw s
    · rw [hk, hh, habs]
      rw [habs] at hlt
      simp only [List.isEmpty_cons, if_false]
      have hfeed :
          prev.filter (fun t => decide (env.now - t < tenSeconds)) ++
            [env.now] =
          (prev ++ [env.now]).filter
            (fun t => decide (env.now - t < tenSeconds)) := by
        rw [List.filter_append]
        congr 1
        simp [tenSeconds]
      have hp' : ∀ t ∈ prev ++ [env.now], t ≤ env.now := by
        intro t ht
        rcases List.mem_append.mp ht with h | h
        · exact Nat.le_trans (hp t h) hNn
        · simp at h
          omega
      have hw' : ∀ u, winCount (prev ++ [env.now]) u ≤ 3 := by
        intro u
        rw [winCount_append]
        by_cases hin : u ≤ env.now ∧ env.now < u + tenSeconds
        · have hcnt1 : winCount [env.now] u = 1 := by
            simp [winCount, hin.1, hin.2]
          have hmono : winCount prev u ≤
              (prev.filter
                (fun t => decide (env.now - t < tenSeconds))).length := by
            apply filter_length_mono
            intro a _ hpa
            simp only [Bool.and_eq_true, decide_eq_true_eq] at hpa ⊢
            omega
          omega
        · have hcnt0 : winCount [env.now] u = 0 := by
            simp only [winCount, List.filter_cons, List.filter_nil]
            rw [if_neg]
            · rfl
            · simp only [Bool.and_eq_true, decide_eq_true_eq]
              omega
          have := hw u
          omega
      have hrec := ih (prev ++ [env.now]) env.now hmrest hp' hw' s
      rw [← hfeed] at hrec
      rw [List.append_assoc] at hrec
      exact hrec

/-- C6: (1) along any sequence of KillProcess executions with a monotone
clock, starting from the empty history, at most 3 kills are issued inside
any rolling ten-second window; (2) in the spec scenario -- four clean kill
commands within ten seconds -- the first three succeed and are recorded,
the fourth is rejected with the rate-limit error, no kill issued and
nothing recorded, and a fifth after the window passes succeeds again;
(3) an attempt is recorded in the window exactly when a kill is actually
issued -- a rejected attempt leaves the history only pruned. -/
theorem c6_kill_rate_limit :
    (∀ steps, monoFromB 0 steps = true →
      ∀ s, winCount (killTrace [] steps).2 s ≤ 3) ∧
    (∀ env1 env2 env3 env4 env5 : Env, ∀ pid1 pid2 pid3 pid4 pid5 : Nat,
      killClean env1 pid1 = true → killClean env2 pid2 = true →
      killClean env3 pid3 = true → killClean env4 pid4 = true →
      killClean env5 pid5 = true →
      env1.now ≤ env2.now → env2.now ≤ env3.now → env3.now ≤ env4.now →
      env4.now < env1.now + tenSeconds →
      env3.now + tenSeconds ≤ env5.now →
      killProcessExec env1 [] pid1 =
        ⟨[env1.now], [killSuccessEvent pid1], [pid1]⟩ ∧
      killProcessExec env2 [env1.now] pid2 =
        ⟨[env1.now, env2.now], [killSuccessEvent pid2], [pid2]⟩ ∧
      killProcessExec env3 [env1.now, env2.now] pid3 =
        ⟨[env1.now, env2.now, env3.now], [killSuccessEvent pid3],
          [pid3]⟩ ∧
      killProcessExec env4 [env1.now, env2.now, env3.now] pid4 =
        ⟨[env1.now, env2.now, env3.now], [killRateLimitEvent pid4], []⟩ ∧
      killProcessExec env5 [env1.now, env2.now, env3.now] pid5 =
        ⟨[env5.now], [killSuccessEvent pid5], [pid5]⟩) ∧
    (∀ env hist pid,
      ((killProcessExec env hist pid).kills = [] →
        (killProcessExec env hist pid).history =
          hist.filter (fun t => decide (env.now - t < tenSeconds))) ∧
      ((killProcessExec env hist pid).kills ≠ [] →
        (killProcessExec env hist pid).history =
          hist.filter (fun t => decide (env.now - t < tenSeconds)) ++
            [env.now])) := by
  refine ⟨?_, ?_, ?_⟩
  · intro steps hm s
    have h := killTrace_window_inv steps [] 0 hm (by intro t ht; cases ht)
      (fun u => by simp [winCount]) s
    simpa using h
  · intro env1 env2 env3 env4 env5 pid1 pid2 pid3 pid4 pid5
      hc1 hc2 hc3 hc4 hc5 h12 h23 h34 h41 h53
    have c21 : env2.now - env1.now < tenSeconds := by omega
    have c31 : env3.now - env1.now < tenSeconds := by omega
    have c32 : env3.now - env2.now < tenSeconds := by omega
    have c41 : env4.now - env1.now < tenSeconds := by omega
    have c42 : env4.now - env2.now < tenSeconds := by omega
    have c43 : env4.now - env3.now < tenSeconds := by omega
    have n51 : ¬ (env5.now - env1.now < tenSeconds) := by omega
    have n52 : ¬ (env5.now - env2.now < tenSeconds) := by omega
    have n53 : ¬ (env5.now - env3.now < tenSeconds) := by omega
    have f2 : List.filter (fun t => decide (env2.now - t < tenSeconds))
        [env1.now] = [env1.now] := by
      simp [List.filter_cons, c21]
    have f3 : List.filter (fun t => decide (env3.now - t < tenSeconds))
        [env1.now, env2.now] = [env1.now, env2.now] := by
      simp [List.filter_cons, c31, c32]
    have f4 : List.filter (fun t => decide (env4.now - t < tenSeconds))
        [env1.now, env2.now, env3.now] =
        [env1.now, env2.now, env3.now] := by
      simp [List.filter_cons, c41, c42, c43]
    have f5 : List.filter (fun t => decide (env5.now - t < tenSeconds))
        [env1.now, env2.now, env3.now] = [] := by
      simp [List.filter_cons, n51, n52, n53]
    refine ⟨?_, ?_, ?_, ?_, ?_⟩
    · have h := killProcessExec_clean_step env1 [] pid1 hc1 (by simp)
      simpa using h
    · have h := killProcessExec_clean_step env2 [env1.now] pid2 hc2
        (by rw [f2]; simp)
      rw [f2] at h
      simpa using h
    · have h := killProcessExec_clean_step env3 [env1.now, env2.now] pid3
        hc3 (by rw [f3]; simp)
      rw [f3] at h
      simpa using h
    · have h := killProcessExec_rate_limited env4
        [env1.now, env2.now, env3.now] pid4 (by rw [f4]; simp)
      rw [f4] at h
      exact h
    · have h := killProcessExec_clean_step env5
        [env1.now, env2.now, env3.now] pid5 hc5 (by rw [f5]; simp)
      rw [f5] at h
      simpa using h
  · intro env hist pid
    rcases killProcessExec_cases env hist pid with ⟨hk, hh⟩ | ⟨_, hk, hh⟩
    · exact ⟨fun _ => hh, fun hne => absurd hk hne⟩
    · refine ⟨fun h0 => ?_, fun _ => hh⟩
      rw [hk] at h0
      cases h0

/-- The demo environment with the clock set to `t`. -/
def envK (t : Nat) : Env := { demoEnv with now := t }

/-- Four KillProcess steps inside one ten-second window, for the witness. -/
def demoTrace : List (Env × Nat) :=
  [(envK 0, 200), (envK 1, 201), (envK 2, 202), (envK 3, 203)]

/-- Witness for C6: the window bound on a concrete four-step trace, the
concrete 3-success / rate-limited-4th / late-5th scenario at times
0 1 2 3 and 10000000002 ns, and pruned-only recording for a rejected
attempt. -/
theorem c6_kill_rate_limit_witness :
    (monoFromB 0 demoTrace = true ∧
     winCount (killTrace [] demoTrace).2 0 ≤ 3) ∧
    (killClean (envK 0) 200 = true ∧ killClean (envK 3) 203 = true ∧
     killProcessExec (envK 3) [0, 1, 2] 203 =
       ⟨[0, 1, 2], [killRateLimitEvent 203], []⟩ ∧
     killProcessExec (envK 10000000002) [0, 1, 2] 204 =
       ⟨[10000000002], [killSuccessEvent 204], [204]⟩) ∧
    ((killProcessExec demoEnv [] 500).kills ≠ [] ∧
     (killProcessExec demoEnv [] 500).history =
       List.filter (fun t => decide (demoEnv.now - t < tenSeconds)) [] ++
         [demoEnv.now]) :=
  ⟨⟨by decide, c6_kill_rate_limit.1 demoTrace (by decide) 0⟩,
   ⟨by decide, by decide,
    (c6_kill_rate_limit.2.1 (envK 0) (envK 1) (envK 2) (envK 3)
      (envK 10000000002) 200 201 202 203 204 (by decide) (by decide)
      (by decide) (by decide) (by decide) (by decide) (by decide)
      (by decide) (by decide) (by decide)).2.2.2.1,
    (c6_kill_rate_limit.2.1 (envK 0) (envK 1) (envK 2) (envK 3)
      (envK 10000000002) 200 201 202 203 204 (by decide) (by decide)
      (by decide) (by decide) (by decide) (by decide) (by decide)
      (by decide) (by decide) (by decide)).2.2.2.2⟩,
   ⟨by decide,
    (c6_kill_rate_limit.2.2 demoEnv [] 500).2 (by decide)⟩⟩

end Fluffy
